import Mathlib

/-!
Shallow embedding of the GB-VI softcore parameter container
(GBVISoftcoreParameters.h / GBVISoftcoreParameters.cpp).

Modelling conventions:
  * RealOpenMM is embedded as the rationals, giving exact field arithmetic
    for the dielectric, cutoff-box and inverse-cube computations.
  * C++ raw pointers are embedded as natural-number addresses, with 0
    playing the role of NULL.
  * Dynamically allocated arrays live in an explicit heap mapping an
    address to an optional block (a length together with its cell
    contents); delete-ing a block removes it from the heap.
  * Fields the C++ constructor leaves uninitialized (cutoffDistance and
    periodicBoxSize before the corresponding setters run, and the junk
    contents of a fresh new[] allocation) are passed in as explicit
    parameters, so theorems quantify over every possible initial value.
  * A C assert is embedded by making the operation return an Option:
    none models the trap, some the successful update.
-/

namespace GBVISoftcore

abbrev RealOpenMM : Type := ℚ

abbrev RealOpenMMVector : Type := List RealOpenMM

/-- Enumeration of Born-radii scaling methods, from the header. -/
inductive BornRadiusScalingSoftcoreMethod : Type
  | NoScaling
  | Tanh
  | QuinticSpline
deriving DecidableEq, Repr

/-- An allocated array: its element count and its cell contents. -/
structure Block : Type where
  size : ℕ
  val : ℕ → RealOpenMM

/-- Heap of dynamically allocated arrays: a partial map from addresses to
blocks, plus the next fresh address (fresh addresses start at 1 so that 0
is reserved for NULL). -/
structure Heap : Type where
  blocks : ℕ → Option Block
  next : ℕ

/-- Allocate a fresh block of n cells; the new cells hold the junk left
by the allocator (new RealOpenMM[n] performs no initialization). -/
def Heap.alloc (h : Heap) (n : ℕ) (junk : ℕ → RealOpenMM) : Heap × ℕ :=
  (⟨fun b => if b = h.next then some ⟨n, junk⟩ else h.blocks b, h.next + 1⟩, h.next)

/-- Release the block at address a (the effect of delete[] on a non-null
pointer). -/
def Heap.free (h : Heap) (a : ℕ) : Heap :=
  ⟨fun b => if b = a then none else h.blocks b, h.next⟩

/-- Write value v into cell i of the block at address a. -/
def Heap.write (h : Heap) (a i : ℕ) (v : RealOpenMM) : Heap :=
  ⟨fun b =>
      if b = a then
        (h.blocks a).map (fun blk => ⟨blk.size, fun j => if j = i then v else blk.val j⟩)
      else h.blocks b,
    h.next⟩

/-- Zero the cells of the block at address a, as memset over the whole
allocation does. -/
def Heap.memsetZero (h : Heap) (a : ℕ) : Heap :=
  ⟨fun b =>
      if b = a then
        (h.blocks a).map (fun blk => ⟨blk.size, fun j => if j < blk.size then 0 else blk.val j⟩)
      else h.blocks b,
    h.next⟩

/-- A heap with nothing allocated. -/
def emptyHeap : Heap := ⟨fun _ => none, 1⟩

/-- The delete[] statement applied to a possibly-null pointer: the list of
addresses actually released (delete[] NULL releases nothing). -/
def optDelete (p : ℕ) : List ℕ := if p = 0 then [] else [p]

/-- The state of a GBVISoftcoreParameters object.  The first three fields
(atom count and the two dielectric constants) embed the part of the
ImplicitSolventParameters base object this unit reads; the remaining
fields are the members declared in GBVISoftcoreParameters.h. -/
structure Params : Type where
  numberOfAtoms : ℕ
  soluteDielectric : RealOpenMM
  solventDielectric : RealOpenMM
  ownScaledRadii : Bool
  scaledRadii : ℕ
  ownGammaParameters : Bool
  gammaParameters : ℕ
  ownBornRadiusScaleFactors : Bool
  bornRadiusScaleFactors : ℕ
  cutoff : Bool
  periodic : Bool
  periodicBoxSize : RealOpenMM × RealOpenMM × RealOpenMM
  cutoffDistance : RealOpenMM
  bornRadiusScalingSoftcoreMethod : BornRadiusScalingSoftcoreMethod
  quinticLowerLimitFactor : RealOpenMM
  quinticUpperBornRadiusLimit : RealOpenMM
  quinticUpperSplineLimit : RealOpenMM
deriving DecidableEq

def getNumberOfAtoms (s : Params) : ℕ := s.numberOfAtoms

def getSoluteDielectric (s : Params) : RealOpenMM := s.soluteDielectric

def getSolventDielectric (s : Params) : RealOpenMM := s.solventDielectric

/-- setQuinticUpperBornRadiusLimit: stores the limit and recomputes the
spline limit as POW(limit, -3). -/
def setQuinticUpperBornRadiusLimit (s : Params) (v : RealOpenMM) : Params :=
  { s with quinticUpperBornRadiusLimit := v,
           quinticUpperSplineLimit := v ^ (-3 : ℤ) }

def getQuinticUpperBornRadiusLimit (s : Params) : RealOpenMM :=
  s.quinticUpperBornRadiusLimit

def getQuinticUpperSplineLimit (s : Params) : RealOpenMM :=
  s.quinticUpperSplineLimit

def getQuinticLowerLimitFactor (s : Params) : RealOpenMM :=
  s.quinticLowerLimitFactor

def setQuinticLowerLimitFactor (s : Params) (v : RealOpenMM) : Params :=
  { s with quinticLowerLimitFactor := v }

/-- The GBVISoftcoreParameters constructor.  cutoff and periodic start
false; the ownership flags start 0 and the array pointers NULL; the
scaling method starts NoScaling; the lower limit factor starts 0.8; the
upper Born-radius limit is installed through its setter with 5.0.
cutoffDistance and periodicBoxSize are left uninitialized by the C++
constructor, so their initial junk contents are explicit parameters. -/
def mkGBVISoftcoreParameters (numberOfAtoms : ℕ)
    (soluteDielectric solventDielectric : RealOpenMM)
    (junkCutoffDistance : RealOpenMM)
    (junkBox : RealOpenMM × RealOpenMM × RealOpenMM) : Params :=
  setQuinticUpperBornRadiusLimit
    { numberOfAtoms := numberOfAtoms
      soluteDielectric := soluteDielectric
      solventDielectric := solventDielectric
      ownScaledRadii := false
      scaledRadii := 0
      ownGammaParameters := false
      gammaParameters := 0
      ownBornRadiusScaleFactors := false
      bornRadiusScaleFactors := 0
      cutoff := false
      periodic := false
      periodicBoxSize := junkBox
      cutoffDistance := junkCutoffDistance
      bornRadiusScalingSoftcoreMethod := BornRadiusScalingSoftcoreMethod.NoScaling
      quinticLowerLimitFactor := 4 / 5
      quinticUpperBornRadiusLimit := 0
      quinticUpperSplineLimit := 0 } 5

/-- setUseCutoff: enables the cutoff and stores the distance. -/
def setUseCutoff (s : Params) (distance : RealOpenMM) : Params :=
  { s with cutoff := true, cutoffDistance := distance }

def getUseCutoff (s : Params) : Bool := s.cutoff

def getCutoffDistance (s : Params) : RealOpenMM := s.cutoffDistance

/-- setPeriodic: asserts that the cutoff is enabled and every box
dimension is at least twice the cutoff distance; on success stores the
box and enables periodic boundaries.  none models the assertion trap. -/
def setPeriodic (s : Params) (boxSize : RealOpenMM × RealOpenMM × RealOpenMM) :
    Option Params :=
  if s.cutoff = true ∧ boxSize.1 ≥ 2 * s.cutoffDistance ∧
      boxSize.2.1 ≥ 2 * s.cutoffDistance ∧ boxSize.2.2 ≥ 2 * s.cutoffDistance then
    some { s with periodic := true, periodicBoxSize := boxSize }
  else
    none

def getPeriodic (s : Params) : Bool := s.periodic

def getPeriodicBox (s : Params) : RealOpenMM × RealOpenMM × RealOpenMM :=
  s.periodicBoxSize

/-- getTau: (1/e1 - 1/e0) when both dielectrics are nonzero, else 0;
recomputed from the current base state on every call. -/
def getTau (s : Params) : RealOpenMM :=
  if getSoluteDielectric s ≠ 0 ∧ getSolventDielectric s ≠ 0 then
    1 / getSoluteDielectric s - 1 / getSolventDielectric s
  else
    0

/-- The configuration operations exercised by the cutoff/periodic state
machine. -/
inductive CutPerOp : Type
  | useCutoff (distance : RealOpenMM)
  | periodicOp (boxSize : RealOpenMM × RealOpenMM × RealOpenMM)
deriving DecidableEq

/-- One configuration call; a failed assertion yields none. -/
def applyOp (s : Params) : CutPerOp → Option Params
  | CutPerOp.useCutoff d => some (setUseCutoff s d)
  | CutPerOp.periodicOp b => setPeriodic s b

/-- Run a sequence of configuration calls; the sequence aborts (none) as
soon as an assertion fires. -/
def runOps (s : Params) : List CutPerOp → Option Params
  | [] => some s
  | op :: rest =>
      match applyOp s op with
      | none => none
      | some s' => runOps s' rest

/-- Holds when no setUseCutoff call occurs after a setPeriodic call in
the sequence. -/
def noCutoffAfterPeriodic : List CutPerOp → Prop
  | [] => True
  | CutPerOp.useCutoff _ :: rest => noCutoffAfterPeriodic rest
  | CutPerOp.periodicOp _ :: rest =>
      (∀ op ∈ rest, ∀ d, op ≠ CutPerOp.useCutoff d) ∧ noCutoffAfterPeriodic rest

/-- getScaledRadii: if the pointer is NULL, allocate numberOfAtoms
elements, mark them owned and memset them to zero; return the (possibly
fresh) pointer.  The result carries the updated object, the updated heap
and the returned pointer. -/
def getScaledRadii (s : Params) (h : Heap) (junk : ℕ → RealOpenMM) :
    Params × Heap × ℕ :=
  if s.scaledRadii = 0 then
    let ha := h.alloc s.numberOfAtoms junk
    ({ s with scaledRadii := ha.2, ownScaledRadii := true },
      ha.1.memsetZero ha.2, ha.2)
  else
    (s, h, s.scaledRadii)

/-- getGammaParameters: lazy allocation, mirroring getScaledRadii. -/
def getGammaParameters (s : Params) (h : Heap) (junk : ℕ → RealOpenMM) :
    Params × Heap × ℕ :=
  if s.gammaParameters = 0 then
    let ha := h.alloc s.numberOfAtoms junk
    ({ s with gammaParameters := ha.2, ownGammaParameters := true },
      ha.1.memsetZero ha.2, ha.2)
  else
    (s, h, s.gammaParameters)

/-- getBornRadiusScaleFactors: lazy allocation, mirroring
getScaledRadii. -/
def getBornRadiusScaleFactors (s : Params) (h : Heap) (junk : ℕ → RealOpenMM) :
    Params × Heap × ℕ :=
  if s.bornRadiusScaleFactors = 0 then
    let ha := h.alloc s.numberOfAtoms junk
    ({ s with bornRadiusScaleFactors := ha.2, ownBornRadiusScaleFactors := true },
      ha.1.memsetZero ha.2, ha.2)
  else
    (s, h, s.bornRadiusScaleFactors)

def setOwnScaledRadii (s : Params) (own : Bool) : Params :=
  { s with ownScaledRadii := own }

def setOwnGammaParameters (s : Params) (own : Bool) : Params :=
  { s with ownGammaParameters := own }

def setOwnBornRadiusScaleFactors (s : Params) (own : Bool) : Params :=
  { s with ownBornRadiusScaleFactors := own }

/-- Pointer overload of setScaledRadii: if the slot owns a different
array, delete it and clear the ownership flag; then install the supplied
pointer.  The third component lists the addresses passed to delete[] and
actually released. -/
def setScaledRadiiPtr (s : Params) (h : Heap) (p : ℕ) : Params × Heap × List ℕ :=
  if s.ownScaledRadii = true ∧ s.scaledRadii ≠ p then
    ({ s with ownScaledRadii := false, scaledRadii := p },
      h.free s.scaledRadii, optDelete s.scaledRadii)
  else
    ({ s with scaledRadii := p }, h, [])

/-- Pointer overload of setGammaParameters, mirroring
setScaledRadiiPtr. -/
def setGammaParametersPtr (s : Params) (h : Heap) (p : ℕ) : Params × Heap × List ℕ :=
  if s.ownGammaParameters = true ∧ s.gammaParameters ≠ p then
    ({ s with ownGammaParameters := false, gammaParameters := p },
      h.free s.gammaParameters, optDelete s.gammaParameters)
  else
    ({ s with gammaParameters := p }, h, [])

/-- Pointer overload of setBornRadiusScaleFactors, mirroring
setScaledRadiiPtr. -/
def setBornRadiusScaleFactorsPtr (s : Params) (h : Heap) (p : ℕ) :
    Params × Heap × List ℕ :=
  if s.ownBornRadiusScaleFactors = true ∧ s.bornRadiusScaleFactors ≠ p then
    ({ s with ownBornRadiusScaleFactors := false, bornRadiusScaleFactors := p },
      h.free s.bornRadiusScaleFactors, optDelete s.bornRadiusScaleFactors)
  else
    ({ s with bornRadiusScaleFactors := p }, h, [])

/-- The copy loop of the vector setters, writing values[ii] into cell ii
of the block at address a for ii from i upward; returns the updated heap
and the list of cell indices written, in order. -/
def copyLoopAux : Heap → ℕ → List RealOpenMM → ℕ → Heap × List ℕ
  | h, _, [], _ => (h, [])
  | h, a, v :: rest, i =>
      let hw := copyLoopAux (h.write a i v) a rest (i + 1)
      (hw.1, i :: hw.2)

/-- The copy loop starting at index 0, as written in the source. -/
def copyLoop (h : Heap) (a : ℕ) (values : List RealOpenMM) : Heap × List ℕ :=
  copyLoopAux h a values 0

/-- Vector overload of setScaledRadii: delete the owned array if any,
set the ownership flag, allocate numberOfAtoms fresh (uninitialized)
elements and copy values.size() elements into them.  The third component
is the list of cell indices the copy loop wrote. -/
def setScaledRadiiVec (s : Params) (h : Heap) (values : RealOpenMMVector)
    (junk : ℕ → RealOpenMM) : Params × Heap × List ℕ :=
  let h0 := if s.ownScaledRadii = true ∧ s.scaledRadii ≠ 0 then h.free s.scaledRadii else h
  let ha := h0.alloc s.numberOfAtoms junk
  let hw := copyLoop ha.1 ha.2 values
  ({ s with ownScaledRadii := true, scaledRadii := ha.2 }, hw.1, hw.2)

/-- Vector overload of setGammaParameters, mirroring
setScaledRadiiVec. -/
def setGammaParametersVec (s : Params) (h : Heap) (values : RealOpenMMVector)
    (junk : ℕ → RealOpenMM) : Params × Heap × List ℕ :=
  let h0 := if s.ownGammaParameters = true ∧ s.gammaParameters ≠ 0 then h.free s.gammaParameters else h
  let ha := h0.alloc s.numberOfAtoms junk
  let hw := copyLoop ha.1 ha.2 values
  ({ s with ownGammaParameters := true, gammaParameters := ha.2 }, hw.1, hw.2)

/-- Vector overload of setBornRadiusScaleFactors, mirroring
setScaledRadiiVec. -/
def setBornRadiusScaleFactorsVec (s : Params) (h : Heap) (values : RealOpenMMVector)
    (junk : ℕ → RealOpenMM) : Params × Heap × List ℕ :=
  let h0 := if s.ownBornRadiusScaleFactors = true ∧ s.bornRadiusScaleFactors ≠ 0 then h.free s.bornRadiusScaleFactors else h
  let ha := h0.alloc s.numberOfAtoms junk
  let hw := copyLoop ha.1 ha.2 values
  ({ s with ownBornRadiusScaleFactors := true, bornRadiusScaleFactors := ha.2 }, hw.1, hw.2)

/-- The destructor body: the addresses it releases, in program order.
The scaled-radii delete is guarded by the ownership flag; the gamma and
Born-scale-factor deletes are unconditional in the source. -/
def destructorFrees (s : Params) : List ℕ :=
  (if s.ownScaledRadii = true then optDelete s.scaledRadii else []) ++
    optDelete s.gammaParameters ++ optDelete s.bornRadiusScaleFactors

/-- A one-atom container whose three array slots all hold owned non-null
arrays (addresses 1, 2 and 3), used to exercise the pointer setters. -/
def demoOwnedState : Params :=
  { mkGBVISoftcoreParameters 1 1 1 0 (0, 0, 0) with
    ownScaledRadii := true, scaledRadii := 1,
    ownGammaParameters := true, gammaParameters := 2,
    ownBornRadiusScaleFactors := true, bornRadiusScaleFactors := 3 }

@[simp] lemma mk_periodic (n : ℕ) (e1 e0 c0 : RealOpenMM)
    (b0 : RealOpenMM × RealOpenMM × RealOpenMM) :
    (mkGBVISoftcoreParameters n e1 e0 c0 b0).periodic = false := rfl

@[simp] lemma mk_cutoff (n : ℕ) (e1 e0 c0 : RealOpenMM)
    (b0 : RealOpenMM × RealOpenMM × RealOpenMM) :
    (mkGBVISoftcoreParameters n e1 e0 c0 b0).cutoff = false := rfl

@[simp] lemma mk_scaledRadii (n : ℕ) (e1 e0 c0 : RealOpenMM)
    (b0 : RealOpenMM × RealOpenMM × RealOpenMM) :
    (mkGBVISoftcoreParameters n e1 e0 c0 b0).scaledRadii = 0 := rfl

@[simp] lemma mk_ownScaledRadii (n : ℕ) (e1 e0 c0 : RealOpenMM)
    (b0 : RealOpenMM × RealOpenMM × RealOpenMM) :
    (mkGBVISoftcoreParameters n e1 e0 c0 b0).ownScaledRadii = false := rfl

@[simp] lemma mk_gammaParameters (n : ℕ) (e1 e0 c0 : RealOpenMM)
    (b0 : RealOpenMM × RealOpenMM × RealOpenMM) :
    (mkGBVISoftcoreParameters n e1 e0 c0 b0).gammaParameters = 0 := rfl

@[simp] lemma mk_ownGammaParameters (n : ℕ) (e1 e0 c0 : RealOpenMM)
    (b0 : RealOpenMM × RealOpenMM × RealOpenMM) :
    (mkGBVISoftcoreParameters n e1 e0 c0 b0).ownGammaParameters = false := rfl

@[simp] lemma mk_bornRadiusScaleFactors (n : ℕ) (e1 e0 c0 : RealOpenMM)
    (b0 : RealOpenMM × RealOpenMM × RealOpenMM) :
    (mkGBVISoftcoreParameters n e1 e0 c0 b0).bornRadiusScaleFactors = 0 := rfl

@[simp] lemma mk_ownBornRadiusScaleFactors (n : ℕ) (e1 e0 c0 : RealOpenMM)
    (b0 : RealOpenMM × RealOpenMM × RealOpenMM) :
    (mkGBVISoftcoreParameters n e1 e0 c0 b0).ownBornRadiusScaleFactors = false := rfl

@[simp] lemma mk_numberOfAtoms (n : ℕ) (e1 e0 c0 : RealOpenMM)
    (b0 : RealOpenMM × RealOpenMM × RealOpenMM) :
    (mkGBVISoftcoreParameters n e1 e0 c0 b0).numberOfAtoms = n := rfl

@[simp] lemma mk_soluteDielectric (n : ℕ) (e1 e0 c0 : RealOpenMM)
    (b0 : RealOpenMM × RealOpenMM × RealOpenMM) :
    (mkGBVISoftcoreParameters n e1 e0 c0 b0).soluteDielectric = e1 := rfl

@[simp] lemma mk_solventDielectric (n : ℕ) (e1 e0 c0 : RealOpenMM)
    (b0 : RealOpenMM × RealOpenMM × RealOpenMM) :
    (mkGBVISoftcoreParameters n e1 e0 c0 b0).solventDielectric = e0 := rfl

/-- The copy loop writes the indices i, i+1, ..., i+values.length-1
in order, independently of the heap contents. -/
lemma copyLoopAux_writes (values : List RealOpenMM) :
    ∀ (h : Heap) (a i : ℕ),
      (copyLoopAux h a values i).2 = (List.range values.length).map (· + i) := by
  induction values with
  | nil => intro h a i; rfl
  | cons v rest ih =>
      intro h a i
      show i :: (copyLoopAux (h.write a i v) a rest (i + 1)).2 = _
      rw [ih]
      rw [List.length_cons, List.range_succ_eq_map, List.map_cons, List.map_map]
      have hfun : ((· + i) ∘ Nat.succ) = (· + (i + 1)) := by
        funext x
        simp only [Function.comp]
        omega
      rw [hfun, Nat.zero_add]

/-- Contents of the target block after the copy loop: cells i..i+len-1
hold the copied values, the rest is untouched. -/
lemma copyLoopAux_blocks_self (values : List RealOpenMM) :
    ∀ (h : Heap) (a i : ℕ),
      ((copyLoopAux h a values i).1).blocks a =
        (h.blocks a).map (fun blk =>
          ⟨blk.size, fun j =>
            if i ≤ j ∧ j < i + values.length then values.getD (j - i) 0
            else blk.val j⟩) := by
  induction values with
  | nil =>
      intro h a i
      show h.blocks a = _
      cases hb : h.blocks a with
      | none => rfl
      | some blk =>
          simp only [Option.map_some']
          congr 1
          have hval : (fun j => if i ≤ j ∧ j < i + ([] : List RealOpenMM).length
              then ([] : List RealOpenMM).getD (j - i) 0 else blk.val j) = blk.val := by
            funext j
            rw [if_neg]
            simp only [List.length_nil]
            omega
          rw [hval]
  | cons v rest ih =>
      intro h a i
      have h1 : ((copyLoopAux h a (v :: rest) i).1).blocks a
          = ((copyLoopAux (h.write a i v) a rest (i + 1)).1).blocks a := rfl
      rw [h1, ih]
      have h2 : (h.write a i v).blocks a
          = (h.blocks a).map (fun blk =>
              ⟨blk.size, fun j => if j = i then v else blk.val j⟩) := by
        simp [Heap.write]
      rw [h2, Option.map_map]
      cases hb : h.blocks a with
      | none => rfl
      | some blk =>
          simp only [Option.map_some', Function.comp]
          have hfun : (fun j =>
              if i + 1 ≤ j ∧ j < i + 1 + rest.length then rest.getD (j - (i + 1)) 0
              else if j = i then v else blk.val j) =
              (fun j =>
                if i ≤ j ∧ j < i + (v :: rest).length then (v :: rest).getD (j - i) 0
                else blk.val j) := by
            funext j
            simp only [List.length_cons]
            by_cases hin : i + 1 ≤ j ∧ j < i + 1 + rest.length
            · rw [if_pos hin, if_pos (by omega : i ≤ j ∧ j < i + (rest.length + 1))]
              have hk : j - i = (j - (i + 1)) + 1 := by omega
              rw [hk, List.getD_cons_succ]
            · by_cases hji : j = i
              · subst hji
                rw [if_neg hin, if_pos rfl,
                  if_pos (by omega : j ≤ j ∧ j < j + (rest.length + 1)),
                  Nat.sub_self, List.getD_cons_zero]
              · rw [if_neg hin, if_neg hji,
                  if_neg (by omega : ¬(i ≤ j ∧ j < i + (rest.length + 1)))]
          rw [hfun]

/-- Allocating a fresh n-cell block and running the copy loop over it
yields the truncated copy: values in the first values.length cells,
allocator junk beyond them. -/
lemma alloc_copy_block (h0 : Heap) (n : ℕ) (junk : ℕ → RealOpenMM)
    (values : List RealOpenMM) :
    ((copyLoop (h0.alloc n junk).1 (h0.alloc n junk).2 values).1).blocks
        (h0.alloc n junk).2 =
      some ⟨n, fun j => if j < values.length then values.getD j 0 else junk j⟩ := by
  rw [copyLoop, copyLoopAux_blocks_self]
  have halloc : ((h0.alloc n junk).1).blocks (h0.alloc n junk).2 = some ⟨n, junk⟩ := by
    simp [Heap.alloc]
  rw [halloc]
  simp only [Option.map_some']
  have hfun : (fun j =>
      if 0 ≤ j ∧ j < 0 + values.length then values.getD (j - 0) 0 else junk j) =
      (fun j => if j < values.length then values.getD j 0 else junk j) := by
    funext j
    by_cases hj : j < values.length
    · rw [if_pos ⟨Nat.zero_le j, by omega⟩, if_pos hj, Nat.sub_zero]
    · rw [if_neg (by omega), if_neg hj]
  rw [hfun]

/-- The copy loop starting at index 0 writes exactly the indices
0, ..., values.length - 1. -/
lemma copyLoop_writes (h : Heap) (a : ℕ) (values : List RealOpenMM) :
    (copyLoop h a values).2 = List.range values.length := by
  rw [copyLoop, copyLoopAux_writes]
  simp

/-- The backing block installed by the vector setScaledRadii: a fresh
numberOfAtoms-cell block holding the truncated copy of values. -/
lemma setScaledRadiiVec_blocks (s : Params) (h : Heap) (values : RealOpenMMVector)
    (junk : ℕ → RealOpenMM) :
    (setScaledRadiiVec s h values junk).2.1.blocks
        ((setScaledRadiiVec s h values junk).1.scaledRadii) =
      some ⟨s.numberOfAtoms, fun j => if j < values.length then values.getD j 0
        else junk j⟩ :=
  alloc_copy_block
    (if s.ownScaledRadii = true ∧ s.scaledRadii ≠ 0 then h.free s.scaledRadii else h)
    s.numberOfAtoms junk values

/-- The backing block installed by the vector setGammaParameters. -/
lemma setGammaParametersVec_blocks (s : Params) (h : Heap) (values : RealOpenMMVector)
    (junk : ℕ → RealOpenMM) :
    (setGammaParametersVec s h values junk).2.1.blocks
        ((setGammaParametersVec s h values junk).1.gammaParameters) =
      some ⟨s.numberOfAtoms, fun j => if j < values.length then values.getD j 0
        else junk j⟩ :=
  alloc_copy_block
    (if s.ownGammaParameters = true ∧ s.gammaParameters ≠ 0 then h.free s.gammaParameters else h)
    s.numberOfAtoms junk values

/-- The backing block installed by the vector setBornRadiusScaleFactors. -/
lemma setBornRadiusScaleFactorsVec_blocks (s : Params) (h : Heap)
    (values : RealOpenMMVector) (junk : ℕ → RealOpenMM) :
    (setBornRadiusScaleFactorsVec s h values junk).2.1.blocks
        ((setBornRadiusScaleFactorsVec s h values junk).1.bornRadiusScaleFactors) =
      some ⟨s.numberOfAtoms, fun j => if j < values.length then values.getD j 0
        else junk j⟩ :=
  alloc_copy_block
    (if s.ownBornRadiusScaleFactors = true ∧ s.bornRadiusScaleFactors ≠ 0 then
      h.free s.bornRadiusScaleFactors else h)
    s.numberOfAtoms junk values

/-- Unfolding runOps over a setUseCutoff call. -/
lemma runOps_useCutoff_cons (s : Params) (d : RealOpenMM) (rest : List CutPerOp) :
    runOps s (CutPerOp.useCutoff d :: rest) = runOps (setUseCutoff s d) rest := rfl

/-- Unfolding runOps over a setPeriodic call whose assertions hold. -/
lemma runOps_periodicOp_cons_pos (s : Params)
    (b : RealOpenMM × RealOpenMM × RealOpenMM) (rest : List CutPerOp)
    (hg : s.cutoff = true ∧ b.1 ≥ 2 * s.cutoffDistance ∧
      b.2.1 ≥ 2 * s.cutoffDistance ∧ b.2.2 ≥ 2 * s.cutoffDistance) :
    runOps s (CutPerOp.periodicOp b :: rest) =
      runOps { s with periodic := true, periodicBoxSize := b } rest := by
  show (match setPeriodic s b with
        | none => none
        | some s1 => runOps s1 rest) = _
  rw [setPeriodic, if_pos hg]

/-- Once the periodic-implies-cutoff property holds, every configuration
sequence preserves it: setUseCutoff only turns the cutoff on, and
setPeriodic asserts the cutoff first. -/
lemma runOps_periodic_cutoff :
    ∀ (ops : List CutPerOp) (s s' : Params),
      (s.periodic = true → s.cutoff = true) →
      runOps s ops = some s' →
      (s'.periodic = true → s'.cutoff = true) := by
  intro ops
  induction ops with
  | nil =>
      intro s s' hinv hrun
      have hss : s = s' := by
        have : some s = some s' := hrun
        exact Option.some.inj this
      exact hss ▸ hinv
  | cons op rest ih =>
      intro s s' hinv hrun
      cases op with
      | useCutoff d =>
          have hstep : runOps s (CutPerOp.useCutoff d :: rest)
              = runOps (setUseCutoff s d) rest := rfl
          rw [hstep] at hrun
          exact ih _ _ (fun _ => rfl) hrun
      | periodicOp b =>
          by_cases hg : s.cutoff = true ∧ b.1 ≥ 2 * s.cutoffDistance ∧
              b.2.1 ≥ 2 * s.cutoffDistance ∧ b.2.2 ≥ 2 * s.cutoffDistance
          · have hstep : runOps s (CutPerOp.periodicOp b :: rest)
                = runOps { s with periodic := true, periodicBoxSize := b } rest := by
              show (match setPeriodic s b with
                    | none => none
                    | some s1 => runOps s1 rest) = _
              rw [setPeriodic, if_pos hg]
            rw [hstep] at hrun
            exact ih { s with periodic := true, periodicBoxSize := b } s' (fun _ => hg.1) hrun
          · have hstep : runOps s (CutPerOp.periodicOp b :: rest) = none := by
              show (match setPeriodic s b with
                    | none => none
                    | some s1 => runOps s1 rest) = _
              rw [setPeriodic, if_neg hg]
            rw [hstep] at hrun
            exact absurd hrun (by simp)

/-- When no setUseCutoff follows a setPeriodic in the remaining
sequence, the full invariant (periodic implies cutoff on and all box
dimensions at least twice the current cutoff distance) is preserved. -/
lemma runOps_box_invariant :
    ∀ (ops : List CutPerOp) (s s' : Params),
      (s.periodic = true →
        s.cutoff = true ∧ s.periodicBoxSize.1 ≥ 2 * s.cutoffDistance ∧
          s.periodicBoxSize.2.1 ≥ 2 * s.cutoffDistance ∧
          s.periodicBoxSize.2.2 ≥ 2 * s.cutoffDistance) →
      noCutoffAfterPeriodic ops →
      (s.periodic = true → ∀ op ∈ ops, ∀ d, op ≠ CutPerOp.useCutoff d) →
      runOps s ops = some s' →
      (s'.periodic = true →
        s'.cutoff = true ∧ s'.periodicBoxSize.1 ≥ 2 * s'.cutoffDistance ∧
          s'.periodicBoxSize.2.1 ≥ 2 * s'.cutoffDistance ∧
          s'.periodicBoxSize.2.2 ≥ 2 * s'.cutoffDistance) := by
  intro ops
  induction ops with
  | nil =>
      intro s s' hinv _ _ hrun
      have hss : s = s' := by
        have : some s = some s' := hrun
        exact Option.some.inj this
      exact hss ▸ hinv
  | cons op rest ih =>
      intro s s' hinv hnca hnoc hrun
      cases op with
      | useCutoff d =>
          have hsp : s.periodic = false := by
            by_contra hsp
            have hsp' : s.periodic = true := by
              cases hper : s.periodic
              · exact absurd hper hsp
              · rfl
            exact (hnoc hsp' (CutPerOp.useCutoff d) (List.mem_cons_self _ _) d) rfl
          have hstep : runOps s (CutPerOp.useCutoff d :: rest)
              = runOps (setUseCutoff s d) rest := rfl
          rw [hstep] at hrun
          refine ih _ _ ?_ hnca ?_ hrun
          · intro hp
            exact absurd hp (by simp [setUseCutoff, hsp])
          · intro hp
            exact absurd hp (by simp [setUseCutoff, hsp])
      | periodicOp b =>
          by_cases hg : s.cutoff = true ∧ b.1 ≥ 2 * s.cutoffDistance ∧
              b.2.1 ≥ 2 * s.cutoffDistance ∧ b.2.2 ≥ 2 * s.cutoffDistance
          · have hstep : runOps s (CutPerOp.periodicOp b :: rest)
                = runOps { s with periodic := true, periodicBoxSize := b } rest := by
              show (match setPeriodic s b with
                    | none => none
                    | some s1 => runOps s1 rest) = _
              rw [setPeriodic, if_pos hg]
            rw [hstep] at hrun
            obtain ⟨hrest, hnca'⟩ := hnca
            refine ih _ _ ?_ hnca' ?_ hrun
            · intro _
              exact hg
            · intro _
              exact hrest
          · have hstep : runOps s (CutPerOp.periodicOp b :: rest) = none := by
              show (match setPeriodic s b with
                    | none => none
                    | some s1 => runOps s1 rest) = _
              rw [setPeriodic, if_neg hg]
            rw [hstep] at hrun
            exact absurd hrun (by simp)

/-- C1 (amended): in every state reachable by a sequence of setUseCutoff
and setPeriodic calls after construction, periodic implies that the
cutoff is enabled; moreover, for any sequence in which no setUseCutoff
call occurs after a setPeriodic call, periodic also implies that each of
the three box dimensions is at least twice the current cutoff distance.
(A setUseCutoff call after setPeriodic may raise the cutoff distance
above half the stored box, so the claim restricted to the current cutoff
needs that side condition.) -/
theorem C1_periodic_invariant (n : ℕ) (e1 e0 c0 : RealOpenMM)
    (b0 : RealOpenMM × RealOpenMM × RealOpenMM)
    (ops : List CutPerOp) (s' : Params)
    (hrun : runOps (mkGBVISoftcoreParameters n e1 e0 c0 b0) ops = some s') :
    (s'.periodic = true → s'.cutoff = true) ∧
    (noCutoffAfterPeriodic ops → s'.periodic = true →
      s'.cutoff = true ∧ s'.periodicBoxSize.1 ≥ 2 * s'.cutoffDistance ∧
        s'.periodicBoxSize.2.1 ≥ 2 * s'.cutoffDistance ∧
        s'.periodicBoxSize.2.2 ≥ 2 * s'.cutoffDistance) := by
  constructor
  · exact runOps_periodic_cutoff ops _ s' (fun hp => absurd hp (by simp)) hrun
  · intro hnca
    exact runOps_box_invariant ops _ s' (fun hp => absurd hp (by simp)) hnca
      (fun hp => absurd hp (by simp)) hrun

/-- C1 counterexample: the trace setUseCutoff(5); setPeriodic(10,10,10);
setUseCutoff(100) reaches a state where periodic boundaries are enabled
but the first box dimension (10) is smaller than twice the current
cutoff distance (200), refuting the claimed invariant over all call
sequences. -/
theorem C1_counterexample :
    (runOps (mkGBVISoftcoreParameters 1 1 1 0 (0, 0, 0))
        [CutPerOp.useCutoff 5, CutPerOp.periodicOp (10, 10, 10),
          CutPerOp.useCutoff 100]).elim
      False
      (fun s' => s'.periodic = true ∧ s'.cutoff = true ∧
        s'.periodicBoxSize.1 < 2 * s'.cutoffDistance) := by
  have hrun : runOps (mkGBVISoftcoreParameters 1 1 1 0 (0, 0, 0))
      [CutPerOp.useCutoff 5, CutPerOp.periodicOp (10, 10, 10),
        CutPerOp.useCutoff 100] =
      some (setUseCutoff
        { setUseCutoff (mkGBVISoftcoreParameters 1 1 1 0 (0, 0, 0)) 5 with
          periodic := true, periodicBoxSize := (10, 10, 10) } 100) := by
    rw [runOps_useCutoff_cons, runOps_periodicOp_cons_pos]
    · rfl
    · exact ⟨rfl, by norm_num [setUseCutoff], by norm_num [setUseCutoff],
        by norm_num [setUseCutoff]⟩
  rw [hrun]
  refine ⟨rfl, rfl, ?_⟩
  norm_num [setUseCutoff]

/-- C1 witness: the trace setUseCutoff(5); setPeriodic(10,10,10) reaches
a periodic state satisfying the amended invariant. -/
theorem C1_periodic_invariant_witness :
    ({ setUseCutoff (mkGBVISoftcoreParameters 1 1 1 0 (0, 0, 0)) 5 with
        periodic := true, periodicBoxSize := (10, 10, 10) } : Params).cutoff = true ∧
    ({ setUseCutoff (mkGBVISoftcoreParameters 1 1 1 0 (0, 0, 0)) 5 with
        periodic := true, periodicBoxSize := (10, 10, 10) } : Params).periodicBoxSize.1 ≥
      2 * ({ setUseCutoff (mkGBVISoftcoreParameters 1 1 1 0 (0, 0, 0)) 5 with
              periodic := true,
              periodicBoxSize := (10, 10, 10) } : Params).cutoffDistance := by
  have h := C1_periodic_invariant 1 1 1 0 (0, 0, 0)
      [CutPerOp.useCutoff 5, CutPerOp.periodicOp (10, 10, 10)]
      { setUseCutoff (mkGBVISoftcoreParameters 1 1 1 0 (0, 0, 0)) 5 with
        periodic := true, periodicBoxSize := (10, 10, 10) }
      (by
        rw [runOps_useCutoff_cons, runOps_periodicOp_cons_pos]
        · rfl
        · exact ⟨rfl, by norm_num [setUseCutoff], by norm_num [setUseCutoff],
            by norm_num [setUseCutoff]⟩)
  have h3 := h.2 (by simp [noCutoffAfterPeriodic]) rfl
  exact ⟨h3.1, h3.2.1⟩

/-- C4: setPeriodic traps (returns none, modelling the assertion)
exactly when the cutoff is not enabled or some box dimension is below
twice the cutoff distance; under the precondition it enables periodic
boundaries and stores the three box dimensions, leaving every other
field unchanged. -/
theorem C4_setPeriodic_contract (s : Params)
    (b : RealOpenMM × RealOpenMM × RealOpenMM) :
    ((s.cutoff = false ∨ b.1 < 2 * s.cutoffDistance ∨ b.2.1 < 2 * s.cutoffDistance ∨
        b.2.2 < 2 * s.cutoffDistance) → setPeriodic s b = none) ∧
    (s.cutoff = true → b.1 ≥ 2 * s.cutoffDistance → b.2.1 ≥ 2 * s.cutoffDistance →
      b.2.2 ≥ 2 * s.cutoffDistance →
      setPeriodic s b = some { s with periodic := true, periodicBoxSize := b }) := by
  constructor
  · intro hbad
    unfold setPeriodic
    rw [if_neg]
    rintro ⟨hc, h1, h2, h3⟩
    rcases hbad with h | h | h | h
    · rw [h] at hc
      exact Bool.false_ne_true hc
    · exact absurd h1 (not_le.mpr h)
    · exact absurd h2 (not_le.mpr h)
    · exact absurd h3 (not_le.mpr h)
  · intro hc h1 h2 h3
    unfold setPeriodic
    rw [if_pos ⟨hc, h1, h2, h3⟩]

/-- C4 witness: after setUseCutoff(5), setPeriodic(10,10,10) succeeds
while setPeriodic(9,10,10) hits the fatal contract path. -/
theorem C4_setPeriodic_contract_witness :
    setPeriodic (setUseCutoff (mkGBVISoftcoreParameters 1 1 1 0 (0, 0, 0)) 5)
        (10, 10, 10) =
      some { setUseCutoff (mkGBVISoftcoreParameters 1 1 1 0 (0, 0, 0)) 5 with
              periodic := true, periodicBoxSize := (10, 10, 10) } ∧
    setPeriodic (setUseCutoff (mkGBVISoftcoreParameters 1 1 1 0 (0, 0, 0)) 5)
        (9, 10, 10) = none := by
  constructor
  · exact (C4_setPeriodic_contract _ _).2 rfl (by norm_num [setUseCutoff])
      (by norm_num [setUseCutoff]) (by norm_num [setUseCutoff])
  · exact (C4_setPeriodic_contract _ _).1
      (Or.inr (Or.inl (by norm_num [setUseCutoff])))

/-- C5: the quintic upper spline limit equals the upper Born-radius
limit raised to the power -3, both immediately after construction (where
the limit defaults to 5) and after every setQuinticUpperBornRadiusLimit
call with a positive value, including repeated calls on any state. -/
theorem C5_spline_limit_invariant (n : ℕ) (e1 e0 c0 : RealOpenMM)
    (b0 : RealOpenMM × RealOpenMM × RealOpenMM) :
    (getQuinticUpperSplineLimit (mkGBVISoftcoreParameters n e1 e0 c0 b0) =
        getQuinticUpperBornRadiusLimit (mkGBVISoftcoreParameters n e1 e0 c0 b0) ^ (-3 : ℤ) ∧
      getQuinticUpperBornRadiusLimit (mkGBVISoftcoreParameters n e1 e0 c0 b0) = 5) ∧
    (∀ (s : Params) (v : RealOpenMM), 0 < v →
      getQuinticUpperSplineLimit (setQuinticUpperBornRadiusLimit s v) =
          getQuinticUpperBornRadiusLimit (setQuinticUpperBornRadiusLimit s v) ^ (-3 : ℤ) ∧
        getQuinticUpperBornRadiusLimit (setQuinticUpperBornRadiusLimit s v) = v) :=
  ⟨⟨rfl, rfl⟩, fun _ _ _ => ⟨rfl, rfl⟩⟩

/-- C5 witness: setting the upper Born-radius limit to 2 yields a spline
limit of 2 to the power -3; the freshly constructed container has spline
limit 5 to the power -3. -/
theorem C5_spline_limit_invariant_witness :
    getQuinticUpperSplineLimit
        (setQuinticUpperBornRadiusLimit (mkGBVISoftcoreParameters 1 1 1 0 (0, 0, 0)) 2) =
      (2 : ℚ) ^ (-3 : ℤ) ∧
    getQuinticUpperSplineLimit (mkGBVISoftcoreParameters 1 1 1 0 (0, 0, 0)) =
      (5 : ℚ) ^ (-3 : ℤ) := by
  have h := C5_spline_limit_invariant 1 1 1 0 (0, 0, 0)
  have h2 := h.2 (mkGBVISoftcoreParameters 1 1 1 0 (0, 0, 0)) 2 (by norm_num)
  constructor
  · rw [h2.1, h2.2]
  · rw [h.1.1, h.1.2]

/-- C9: getTau returns 0 when either dielectric constant read from the
base state is zero, and 1/soluteDielectric - 1/solventDielectric
otherwise; it is a pure function of the current state. -/
theorem C9_getTau_pure (s : Params) :
    ((getSoluteDielectric s = 0 ∨ getSolventDielectric s = 0) → getTau s = 0) ∧
    (getSoluteDielectric s ≠ 0 → getSolventDielectric s ≠ 0 →
      getTau s = 1 / getSoluteDielectric s - 1 / getSolventDielectric s) := by
  constructor
  · intro hz
    unfold getTau
    rw [if_neg]
    rintro ⟨h1, h0⟩
    rcases hz with hz | hz
    · exact h1 hz
    · exact h0 hz
  · intro h1 h0
    unfold getTau
    rw [if_pos ⟨h1, h0⟩]

/-- C9 witness: with solute dielectric 1 and solvent dielectric 78.5,
tau is 1 - 1/78.5 = 155/157. -/
theorem C9_getTau_pure_witness :
    getTau (mkGBVISoftcoreParameters 10 1 (157 / 2) 0 (0, 0, 0)) = 155 / 157 := by
  have h := (C9_getTau_pure (mkGBVISoftcoreParameters 10 1 (157 / 2) 0 (0, 0, 0))).2
      (by norm_num [getSoluteDielectric]) (by norm_num [getSolventDielectric])
  rw [h]
  norm_num [getSoluteDielectric, getSolventDielectric]

/-- C2: evaluation at the failing input.  On a freshly constructed
one-atom container, installing a borrowed (non-owned) gamma array at
address 5 through the pointer setter leaves the gamma ownership flag
false, yet the destructor still releases address 5: the source guards
only the scaled-radii delete with its ownership flag and deletes the
gamma and Born-radius-scale-factor arrays unconditionally, contradicting
the claim (and the destructor's own comment) that non-owned arrays are
never released. -/
theorem C2_destructor_frees_borrowed_gamma :
    ((setGammaParametersPtr (mkGBVISoftcoreParameters 1 1 1 0 (0, 0, 0))
        emptyHeap 5).1).ownGammaParameters = false ∧
    destructorFrees
        ((setGammaParametersPtr (mkGBVISoftcoreParameters 1 1 1 0 (0, 0, 0))
          emptyHeap 5).1) = [5] := by
  constructor
  · rfl
  · rfl

/-- C3 counterexample: on a fresh two-atom container, the vector
setScaledRadii with the one-element sequence [7] and an allocator whose
fresh cells hold 1 leaves cell 1 of the installed array at 1, not 0:
the new[] allocation is uninitialized and the copy loop writes only
values.size() elements, so the tail is not zero. -/
theorem C3_counterexample :
    ((setScaledRadiiVec (mkGBVISoftcoreParameters 2 1 1 0 (0, 0, 0)) emptyHeap
          [7] (fun _ => 1)).2.1.blocks
        ((setScaledRadiiVec (mkGBVISoftcoreParameters 2 1 1 0 (0, 0, 0)) emptyHeap
          [7] (fun _ => 1)).1.scaledRadii)).map (fun blk => blk.val 1) =
      some 1 ∧ some (1 : ℚ) ≠ some (0 : ℚ) := by
  constructor
  · rfl
  · simp

/-- C3 (amended): for every positive atom count N and sequence shorter
than N, the vector setScaledRadii on a freshly constructed container
installs a fresh N-element array whose first values.size() elements
equal the sequence element-wise and whose remaining cells hold the
allocation's original (uninitialized) contents, which need not be
zero. -/
theorem C3_truncating_copy (n : ℕ) (e1 e0 c0 : RealOpenMM)
    (b0 : RealOpenMM × RealOpenMM × RealOpenMM)
    (values : RealOpenMMVector) (junk : ℕ → RealOpenMM) (h : Heap)
    (hn : 0 < n) (hlen : values.length < n) :
    ∃ blk : Block,
      (setScaledRadiiVec (mkGBVISoftcoreParameters n e1 e0 c0 b0) h values junk).2.1.blocks
          ((setScaledRadiiVec (mkGBVISoftcoreParameters n e1 e0 c0 b0) h values
            junk).1.scaledRadii) = some blk ∧
      blk.size = n ∧
      (∀ i, i < values.length → blk.val i = values.getD i 0) ∧
      (∀ i, values.length ≤ i → i < n → blk.val i = junk i) := by
  refine ⟨⟨n, fun j => if j < values.length then values.getD j 0 else junk j⟩,
    ?_, rfl, ?_, ?_⟩
  · exact setScaledRadiiVec_blocks (mkGBVISoftcoreParameters n e1 e0 c0 b0) h values junk
  · intro i hi
    show (if i < values.length then values.getD i 0 else junk i) = values.getD i 0
    rw [if_pos hi]
  · intro i hge _
    show (if i < values.length then values.getD i 0 else junk i) = junk i
    rw [if_neg (by omega)]

/-- C3 witness: at atom count 2 with the sequence [7], the installed
array has exactly 2 elements. -/
theorem C3_truncating_copy_witness :
    ((setScaledRadiiVec (mkGBVISoftcoreParameters 2 1 1 0 (0, 0, 0)) emptyHeap
          [7] (fun _ => 1)).2.1.blocks
        ((setScaledRadiiVec (mkGBVISoftcoreParameters 2 1 1 0 (0, 0, 0)) emptyHeap
          [7] (fun _ => 1)).1.scaledRadii)).map Block.size = some 2 := by
  obtain ⟨blk, hb, hsz, _, _⟩ :=
    C3_truncating_copy 2 1 1 0 (0, 0, 0) [7] (fun _ => 1) emptyHeap
      (by norm_num) (by norm_num)
  rw [hb]
  simp [hsz]

/-- C6: in each sequence-based setter the copy loop writes exactly the
indices 0..values.size()-1 of a freshly allocated numberOfAtoms-element
array, every written index is within that allocation precisely when
values.size() is at most the atom count, and none of the setters
branches on the length (the embedded setters are total functions of
their inputs, mirroring the validation-free source). -/
theorem C6_copy_loop_extent (s : Params) (h : Heap) (values : RealOpenMMVector)
    (junk : ℕ → RealOpenMM) :
    (setScaledRadiiVec s h values junk).2.2 = List.range values.length ∧
    (setGammaParametersVec s h values junk).2.2 = List.range values.length ∧
    (setBornRadiusScaleFactorsVec s h values junk).2.2 = List.range values.length ∧
    (List.range values.length).length = values.length ∧
    ((∀ i ∈ List.range values.length, i < s.numberOfAtoms) ↔
      values.length ≤ s.numberOfAtoms) ∧
    ((setScaledRadiiVec s h values junk).2.1.blocks
        ((setScaledRadiiVec s h values junk).1.scaledRadii)).map Block.size =
      some s.numberOfAtoms ∧
    ((setGammaParametersVec s h values junk).2.1.blocks
        ((setGammaParametersVec s h values junk).1.gammaParameters)).map Block.size =
      some s.numberOfAtoms ∧
    ((setBornRadiusScaleFactorsVec s h values junk).2.1.blocks
        ((setBornRadiusScaleFactorsVec s h values junk).1.bornRadiusScaleFactors)).map
      Block.size = some s.numberOfAtoms := by
  refine ⟨copyLoop_writes _ _ _, copyLoop_writes _ _ _, copyLoop_writes _ _ _,
    List.length_range _, ⟨?_, ?_⟩, ?_, ?_, ?_⟩
  · intro hall
    by_contra hno
    push_neg at hno
    exact absurd (hall s.numberOfAtoms (List.mem_range.mpr hno)) (lt_irrefl _)
  · intro hle i hi
    exact lt_of_lt_of_le (List.mem_range.mp hi) hle
  · rw [setScaledRadiiVec_blocks]
    rfl
  · rw [setGammaParametersVec_blocks]
    rfl
  · rw [setBornRadiusScaleFactorsVec_blocks]
    rfl

/-- C6 witness: with a two-element sequence the scaled-radii copy loop
writes exactly the indices 0 and 1. -/
theorem C6_copy_loop_extent_witness :
    (setScaledRadiiVec (mkGBVISoftcoreParameters 2 1 1 0 (0, 0, 0)) emptyHeap
        [3, 4] (fun _ => 0)).2.2 = List.range 2 :=
  (C6_copy_loop_extent (mkGBVISoftcoreParameters 2 1 1 0 (0, 0, 0)) emptyHeap
    [3, 4] (fun _ => 0)).1

/-- C7: on a freshly constructed container with positive atom count, the
first call to each lazy getter allocates a fresh n-element block at the
next free address, zero-fills it, sets the slot's ownership flag and
installs and returns that address; on any state whose backing pointer is
already non-null, each getter returns the stored pointer and changes
neither the object nor the heap. -/
theorem C7_lazy_getters (n : ℕ) (e1 e0 c0 : RealOpenMM)
    (b0 : RealOpenMM × RealOpenMM × RealOpenMM) (h : Heap)
    (junk : ℕ → RealOpenMM) (hn : 0 < n) :
    (getScaledRadii (mkGBVISoftcoreParameters n e1 e0 c0 b0) h junk =
        ({ mkGBVISoftcoreParameters n e1 e0 c0 b0 with
            scaledRadii := h.next, ownScaledRadii := true },
          ((h.alloc n junk).1).memsetZero h.next, h.next) ∧
      (((h.alloc n junk).1).memsetZero h.next).blocks h.next =
        some ⟨n, fun j => if j < n then 0 else junk j⟩) ∧
    (getGammaParameters (mkGBVISoftcoreParameters n e1 e0 c0 b0) h junk =
        ({ mkGBVISoftcoreParameters n e1 e0 c0 b0 with
            gammaParameters := h.next, ownGammaParameters := true },
          ((h.alloc n junk).1).memsetZero h.next, h.next)) ∧
    (getBornRadiusScaleFactors (mkGBVISoftcoreParameters n e1 e0 c0 b0) h junk =
        ({ mkGBVISoftcoreParameters n e1 e0 c0 b0 with
            bornRadiusScaleFactors := h.next, ownBornRadiusScaleFactors := true },
          ((h.alloc n junk).1).memsetZero h.next, h.next)) ∧
    (∀ (s : Params) (h2 : Heap) (junk2 : ℕ → RealOpenMM), s.scaledRadii ≠ 0 →
      getScaledRadii s h2 junk2 = (s, h2, s.scaledRadii)) ∧
    (∀ (s : Params) (h2 : Heap) (junk2 : ℕ → RealOpenMM), s.gammaParameters ≠ 0 →
      getGammaParameters s h2 junk2 = (s, h2, s.gammaParameters)) ∧
    (∀ (s : Params) (h2 : Heap) (junk2 : ℕ → RealOpenMM),
      s.bornRadiusScaleFactors ≠ 0 →
      getBornRadiusScaleFactors s h2 junk2 = (s, h2, s.bornRadiusScaleFactors)) := by
  refine ⟨⟨rfl, ?_⟩, rfl, rfl, ?_, ?_, ?_⟩
  · simp [Heap.alloc, Heap.memsetZero]
  · intro s h2 junk2 hnz
    unfold getScaledRadii
    rw [if_neg hnz]
  · intro s h2 junk2 hnz
    unfold getGammaParameters
    rw [if_neg hnz]
  · intro s h2 junk2 hnz
    unfold getBornRadiusScaleFactors
    rw [if_neg hnz]

/-- C7 witness: with one atom and an allocator filling fresh cells with
1, the first getScaledRadii call returns address 1 of the empty heap and
the zero-filled one-cell block sits there; a repeated call on the
resulting state returns the same address and changes nothing. -/
theorem C7_lazy_getters_witness :
    (getScaledRadii (mkGBVISoftcoreParameters 1 1 1 0 (0, 0, 0)) emptyHeap
        (fun _ => 1)).2.2 = emptyHeap.next ∧
    getScaledRadii
        ({ mkGBVISoftcoreParameters 1 1 1 0 (0, 0, 0) with
            scaledRadii := emptyHeap.next, ownScaledRadii := true })
        ((emptyHeap.alloc 1 (fun _ => 1)).1.memsetZero emptyHeap.next)
        (fun _ => 1) =
      ({ mkGBVISoftcoreParameters 1 1 1 0 (0, 0, 0) with
          scaledRadii := emptyHeap.next, ownScaledRadii := true },
        (emptyHeap.alloc 1 (fun _ => 1)).1.memsetZero emptyHeap.next,
        emptyHeap.next) := by
  have h := C7_lazy_getters 1 1 1 0 (0, 0, 0) emptyHeap (fun _ => 1) (by norm_num)
  constructor
  · rw [h.1.1]
  · exact h.2.2.2.1 _ _ _ (by norm_num [emptyHeap])

/-- C8: for each pointer setter, when the slot owns a non-null array
different from the supplied pointer, that array is released exactly once
and the ownership flag is cleared while the supplied pointer is
installed; and in every case the supplied pointer becomes the backing
array and the heap block at the supplied address is never written. -/
theorem C8_ptr_setters (s : Params) (h : Heap) (p : ℕ) :
    (s.ownScaledRadii = true → s.scaledRadii ≠ p → s.scaledRadii ≠ 0 →
      setScaledRadiiPtr s h p =
        ({ s with ownScaledRadii := false, scaledRadii := p },
          h.free s.scaledRadii, [s.scaledRadii])) ∧
    ((setScaledRadiiPtr s h p).1.scaledRadii = p ∧
      (setScaledRadiiPtr s h p).2.1.blocks p = h.blocks p) ∧
    (s.ownGammaParameters = true → s.gammaParameters ≠ p → s.gammaParameters ≠ 0 →
      setGammaParametersPtr s h p =
        ({ s with ownGammaParameters := false, gammaParameters := p },
          h.free s.gammaParameters, [s.gammaParameters])) ∧
    ((setGammaParametersPtr s h p).1.gammaParameters = p ∧
      (setGammaParametersPtr s h p).2.1.blocks p = h.blocks p) ∧
    (s.ownBornRadiusScaleFactors = true → s.bornRadiusScaleFactors ≠ p →
      s.bornRadiusScaleFactors ≠ 0 →
      setBornRadiusScaleFactorsPtr s h p =
        ({ s with ownBornRadiusScaleFactors := false, bornRadiusScaleFactors := p },
          h.free s.bornRadiusScaleFactors, [s.bornRadiusScaleFactors])) ∧
    ((setBornRadiusScaleFactorsPtr s h p).1.bornRadiusScaleFactors = p ∧
      (setBornRadiusScaleFactorsPtr s h p).2.1.blocks p = h.blocks p) := by
  refine ⟨?_, ⟨?_, ?_⟩, ?_, ⟨?_, ?_⟩, ?_, ⟨?_, ?_⟩⟩
  · intro hown hne hnz
    unfold setScaledRadiiPtr
    rw [if_pos ⟨hown, hne⟩]
    unfold optDelete
    rw [if_neg hnz]
  · by_cases hg : s.ownScaledRadii = true ∧ s.scaledRadii ≠ p
    · unfold setScaledRadiiPtr
      rw [if_pos hg]
    · unfold setScaledRadiiPtr
      rw [if_neg hg]
  · by_cases hg : s.ownScaledRadii = true ∧ s.scaledRadii ≠ p
    · unfold setScaledRadiiPtr
      rw [if_pos hg]
      show (if p = s.scaledRadii then none else h.blocks p) = h.blocks p
      rw [if_neg (fun hpe => hg.2 hpe.symm)]
    · unfold setScaledRadiiPtr
      rw [if_neg hg]
  · intro hown hne hnz
    unfold setGammaParametersPtr
    rw [if_pos ⟨hown, hne⟩]
    unfold optDelete
    rw [if_neg hnz]
  · by_cases hg : s.ownGammaParameters = true ∧ s.gammaParameters ≠ p
    · unfold setGammaParametersPtr
      rw [if_pos hg]
    · unfold setGammaParametersPtr
      rw [if_neg hg]
  · by_cases hg : s.ownGammaParameters = true ∧ s.gammaParameters ≠ p
    · unfold setGammaParametersPtr
      rw [if_pos hg]
      show (if p = s.gammaParameters then none else h.blocks p) = h.blocks p
      rw [if_neg (fun hpe => hg.2 hpe.symm)]
    · unfold setGammaParametersPtr
      rw [if_neg hg]
  · intro hown hne hnz
    unfold setBornRadiusScaleFactorsPtr
    rw [if_pos ⟨hown, hne⟩]
    unfold optDelete
    rw [if_neg hnz]
  · by_cases hg : s.ownBornRadiusScaleFactors = true ∧ s.bornRadiusScaleFactors ≠ p
    · unfold setBornRadiusScaleFactorsPtr
      rw [if_pos hg]
    · unfold setBornRadiusScaleFactorsPtr
      rw [if_neg hg]
  · by_cases hg : s.ownBornRadiusScaleFactors = true ∧ s.bornRadiusScaleFactors ≠ p
    · unfold setBornRadiusScaleFactorsPtr
      rw [if_pos hg]
      show (if p = s.bornRadiusScaleFactors then none else h.blocks p) = h.blocks p
      rw [if_neg (fun hpe => hg.2 hpe.symm)]
    · unfold setBornRadiusScaleFactorsPtr
      rw [if_neg hg]

/-- C8 witness: on a container owning arrays 1, 2 and 3, installing the
borrowed address 9 releases exactly the previously owned array of each
slot once and clears that slot's ownership flag. -/
theorem C8_ptr_setters_witness :
    setScaledRadiiPtr demoOwnedState emptyHeap 9 =
      ({ demoOwnedState with ownScaledRadii := false, scaledRadii := 9 },
        emptyHeap.free 1, [1]) ∧
    setGammaParametersPtr demoOwnedState emptyHeap 9 =
      ({ demoOwnedState with ownGammaParameters := false, gammaParameters := 9 },
        emptyHeap.free 2, [2]) ∧
    setBornRadiusScaleFactorsPtr demoOwnedState emptyHeap 9 =
      ({ demoOwnedState with ownBornRadiusScaleFactors := false, bornRadiusScaleFactors := 9 },
        emptyHeap.free 3, [3]) := by
  have h := C8_ptr_setters demoOwnedState emptyHeap 9
  exact ⟨h.1 rfl (by norm_num [demoOwnedState]) (by norm_num [demoOwnedState]),
    h.2.2.1 rfl (by norm_num [demoOwnedState]) (by norm_num [demoOwnedState]),
    h.2.2.2.2.1 rfl (by norm_num [demoOwnedState]) (by norm_num [demoOwnedState])⟩

/-- C10: calling a pointer setter with the very pointer the slot already
holds while the slot owns it frees nothing, leaves the heap untouched
and keeps the ownership flag true. -/
theorem C10_self_assignment_keeps_ownership (s : Params) (h : Heap) :
    (s.ownScaledRadii = true →
      setScaledRadiiPtr s h s.scaledRadii = (s, h, []) ∧
      (setScaledRadiiPtr s h s.scaledRadii).1.ownScaledRadii = true) ∧
    (s.ownGammaParameters = true →
      setGammaParametersPtr s h s.gammaParameters = (s, h, []) ∧
      (setGammaParametersPtr s h s.gammaParameters).1.ownGammaParameters = true) ∧
    (s.ownBornRadiusScaleFactors = true →
      setBornRadiusScaleFactorsPtr s h s.bornRadiusScaleFactors = (s, h, []) ∧
      (setBornRadiusScaleFactorsPtr s h
        s.bornRadiusScaleFactors).1.ownBornRadiusScaleFactors = true) := by
  refine ⟨?_, ?_, ?_⟩
  · intro hown
    have hng : ¬(s.ownScaledRadii = true ∧ s.scaledRadii ≠ s.scaledRadii) :=
      fun hc => hc.2 rfl
    constructor
    · unfold setScaledRadiiPtr
      rw [if_neg hng]
    · unfold setScaledRadiiPtr
      rw [if_neg hng]
      exact hown
  · intro hown
    have hng : ¬(s.ownGammaParameters = true ∧ s.gammaParameters ≠ s.gammaParameters) :=
      fun hc => hc.2 rfl
    constructor
    · unfold setGammaParametersPtr
      rw [if_neg hng]
    · unfold setGammaParametersPtr
      rw [if_neg hng]
      exact hown
  · intro hown
    have hng : ¬(s.ownBornRadiusScaleFactors = true ∧
        s.bornRadiusScaleFactors ≠ s.bornRadiusScaleFactors) :=
      fun hc => hc.2 rfl
    constructor
    · unfold setBornRadiusScaleFactorsPtr
      rw [if_neg hng]
    · unfold setBornRadiusScaleFactorsPtr
      rw [if_neg hng]
      exact hown

/-- C10 witness: self-assigning the owned arrays 1, 2 and 3 frees
nothing and keeps every ownership flag true. -/
theorem C10_self_assignment_keeps_ownership_witness :
    setScaledRadiiPtr demoOwnedState emptyHeap demoOwnedState.scaledRadii =
      (demoOwnedState, emptyHeap, []) ∧
    (setGammaParametersPtr demoOwnedState emptyHeap
      demoOwnedState.gammaParameters).1.ownGammaParameters = true ∧
    (setBornRadiusScaleFactorsPtr demoOwnedState emptyHeap
      demoOwnedState.bornRadiusScaleFactors).1.ownBornRadiusScaleFactors = true := by
  have h := C10_self_assignment_keeps_ownership demoOwnedState emptyHeap
  exact ⟨(h.1 rfl).1, (h.2.1 rfl).2, (h.2.2 rfl).2⟩

end GBVISoftcore
